import Mathlib

/-!
Verification of the agent automation step
(`packages/server/src/automations/steps/ai/agent.ts`).

The TypeScript source is shallowly embedded: the step's external
collaborators (agent store, model-config store, LiteLLM backend, workspace
classifier) are an explicit environment record whose fallible calls return
`Except Err`, and `run` is a pure function from inputs, ambient workspace id
and environment to a step outcome paired with a trace of observable side
effects (session generation, span operations, store and backend calls).
-/

namespace AgentStep

/-- A thrown JavaScript error: name and message. -/
structure Err where
  name : String
  message : String
deriving DecidableEq, Repr

/-- Tool metadata as listed by `sdk.ai.agents.getAvailableToolsMetadata`. -/
structure ToolMetadata where
  name : String
  description : String
deriving DecidableEq, Repr

/-- The agent configuration returned by `sdk.ai.agents.getOrThrow`. -/
structure AgentConfig where
  name : String
  aiconfig : String
  enabledTools : Option (List String)
  live : Option Bool
deriving DecidableEq, Repr

/-- The model configuration returned by
`sdk.aiConfigs.getLiteLLMModelConfigOrThrow`. -/
structure ModelConfig where
  modelId : String
  modelName : String
  baseUrl : String
  apiKey : String
deriving DecidableEq, Repr

/-- A value sitting in a field of an untyped UI-message part: either a
string or something of any other shape. -/
inductive PartVal where
  | str (s : String)
  | other
deriving DecidableEq, Repr

/-- An untyped part of a streamed UI message.  A part may fail to be an
object at all, and an object part may lack the `type` or `toolName` field
(`none`) or hold a non-string value there (`PartVal.other`). -/
inductive Part where
  | notObject
  | obj (typeField : Option PartVal) (toolName : Option PartVal)
deriving DecidableEq, Repr

/-- A streamed UI message: an ordered list of parts. -/
structure UIMessage where
  parts : List Part
deriving DecidableEq, Repr

/-- Token usage statistics reported by the stream. -/
structure Usage where
  inputTokens : Nat
  outputTokens : Nat
deriving DecidableEq, Repr

/-- One entry of the tool-usage histogram. -/
structure ToolUse where
  name : String
  count : Nat
deriving DecidableEq, Repr

/-- The optional model-identity summary of a decision log. -/
structure ModelIdentity where
  id : Option String
  name : Option String
  baseUrl : Option String
deriving DecidableEq, Repr

/-- `AgentDecisionLog`: every field optional, as in `@budibase/types`. -/
structure AgentDecisionLog where
  enabledTools : Option (List ToolMetadata)
  usedTools : Option (List ToolUse)
  model : Option ModelIdentity
deriving DecidableEq, Repr

/-- The step outcome (`AgentStepOutputs`).  Only `success` and `response`
are always present; the early-return object literals in the source omit
every other field, so they are optional here. -/
structure AgentStepOutputs where
  success : Bool
  response : String
  usage : Option Usage := none
  message : Option UIMessage := none
  output : Option (List (String × String)) := none
  agentTrace : Option AgentDecisionLog := none
deriving DecidableEq, Repr

/-- The automation step inputs.  JavaScript falsiness makes every field
effectively optional at runtime, so each is an `Option`; a present but
empty string is still falsy. -/
structure AgentStepInputs where
  agentId : Option String
  prompt : Option String
  useStructuredOutput : Option Bool
  outputSchema : Option (List String)
deriving DecidableEq, Repr

/-- JavaScript truthiness of an optional string: present and non-empty. -/
def strTruthy : Option String → Bool
  | none => false
  | some s => decide (s ≠ "")

/-- Extract the tool name counted for a part by `buildAgentDecisionLog`:
the part must be an object whose `type` is a string starting with
`tool-` or equal to `dynamic-tool`, and whose `toolName` is a truthy
(non-empty) string; otherwise the part contributes nothing. -/
def partToolName : Part → Option String
  | Part.notObject => none
  | Part.obj typeField toolNameField =>
    match typeField with
    | some (PartVal.str t) =>
      if t.startsWith "tool-" || t == "dynamic-tool" then
        match toolNameField with
        | some (PartVal.str n) => if n = "" then none else some n
        | _ => none
      else none
    | _ => none

/-- One step of the `Map`-based tool-call counting: JavaScript `Map`
insertion order keeps a key at its first-seen position while updating its
count in place. -/
def bump : List ToolUse → String → List ToolUse
  | [], n => [⟨n, 1⟩]
  | t :: ts, n => if t.name = n then ⟨t.name, t.count + 1⟩ :: ts else t :: bump ts n

/-- `buildAgentDecisionLog` from the source: scans the optional assistant
message's parts, builds the first-seen-order tool-usage histogram, omits
`usedTools` when the histogram is empty and `model` when none of the three
identity fields is truthy. -/
def buildAgentDecisionLog (enabledTools : Option (List ToolMetadata))
    (assistantMessage : Option UIMessage)
    (modelId modelName baseUrl : Option String) : AgentDecisionLog :=
  let parts := match assistantMessage with
    | some m => m.parts
    | none => []
  let hist := parts.foldl
    (fun acc p =>
      match partToolName p with
      | some n => bump acc n
      | none => acc) []
  { enabledTools := enabledTools
    usedTools := if hist.length > 0 then some hist else none
    model :=
      if strTruthy modelId || strTruthy modelName || strTruthy baseUrl then
        some ⟨modelId, modelName, baseUrl⟩
      else none }

/-- The final aggregates of a fully drained agent stream. -/
structure StreamResult where
  messages : List UIMessage
  text : String
  usage : Usage
  structured : List (String × String)
deriving DecidableEq, Repr

/-- The request handed to the `ToolLoopAgent` and its `stream` call. -/
structure AgentRequest where
  modelId : String
  instructions : Option String
  toolRegistry : List String
  stepBound : Nat
  outputOption : Option (List String)
  prompt : String
deriving DecidableEq, Repr

/-- The environment of external collaborators: every fallible call
returns `Except Err`, modelling a possible thrown exception. -/
structure Env where
  isProdWorkspaceID : String → Bool
  getOrThrow : String → Except Err AgentConfig
  getAvailableToolsMetadata : String → Except Err (List ToolMetadata)
  buildPromptAndTools : AgentConfig → Except Err (String × List String)
  getLiteLLMModelConfigOrThrow : String → Except Err ModelConfig
  normalizeSchemaForStructuredOutput : List String → List String
  streamAgent : AgentRequest → Except Err StreamResult

/-- Observable side effects of one invocation, in order of occurrence. -/
inductive AgentEvent where
  | sessionGenerated
  | spanOpened
  | getAgentCall
  | getToolsCall
  | spanAnnotated
  | pausedTagged
  | buildPromptToolsCall
  | getModelConfigCall
  | backendClientConstructed
  | backendStreamCall (stepBound : Nat)
deriving DecidableEq, Repr

/-- Response of the missing-agent validation failure. -/
def noAgentMsg : String := "Agent step failed: No agent selected"

/-- Response of the missing-prompt validation failure. -/
def noPromptMsg : String := "Agent step failed: No prompt provided"

/-- Response of the paused-agent refusal. -/
def pausedMsg : String :=
  "Agent is paused. Set it live to use it in published automations."

/-- The fixed step bound passed as `stopWhen: stepCountIs(30)`. -/
def agentStepBound : Nat := 30

/-- Modelled from the spec: `automationUtils.getError` (the file
`automationUtils.ts` is not under `src/`) normalizes any thrown error into
a non-empty human-readable message suitable for logs and UI. -/
def getError (e : Err) : String :=
  if e.message = "" then "Unknown error occurred" else e.message

/-- The paused-agent condition
`appId && isProdWorkspaceID(appId) && agentConfig.live !== true`. -/
def pausedCheck (appId : Option String) (env : Env) (cfg : AgentConfig) : Bool :=
  match appId with
  | none => false
  | some a => decide (a ≠ "") && env.isProdWorkspaceID a && decide (cfg.live ≠ some true)

/-- Resolution of the enabled-tool subset:
`enabledToolNames.size > 0 ? allTools.filter(...) : allTools`. -/
def resolveEnabledTools (allTools : List ToolMetadata)
    (enabledNames : Option (List String)) : List ToolMetadata :=
  let names := enabledNames.getD []
  if names.isEmpty then allTools
  else allTools.filter (fun t => names.contains t.name)

/-- The `catch` branch of `run`: annotates the span (not modelled beyond
the event trace), logs a diagnostic and returns a failure outcome carrying
the best-effort decision log built without the assistant message. -/
def catchOutcome (e : Err) (enabledTools : Option (List ToolMetadata))
    (modelId modelName baseUrl : Option String) : AgentStepOutputs :=
  { success := false
    response := getError e
    agentTrace := some (buildAgentDecisionLog enabledTools none modelId modelName baseUrl) }

/-- The structured-output condition
`useStructuredOutput && outputSchema && Object.keys(outputSchema).length > 0`. -/
def structuredOutputOn (inputs : AgentStepInputs) : Bool :=
  inputs.useStructuredOutput.getD false &&
    match inputs.outputSchema with
    | none => false
    | some keys => decide (keys.length > 0)

/-- `run` from the source, as a pure function: outcome plus effect trace.
The sequencing mirrors the TypeScript line by line: input validation,
session id, span, agent lookup, tool enumeration and filtering, annotation,
paused check, prompt/tool build, model-config lookup, client construction,
structured-output option, bounded agent stream, and a `catch` turning any
thrown error into a failure outcome with a best-effort decision log built
from whatever was resolved at failure time. -/
def run (inputs : AgentStepInputs) (appId : Option String) (env : Env) :
    AgentStepOutputs × List AgentEvent :=
  if strTruthy inputs.agentId = false then
    ({ success := false, response := noAgentMsg }, [])
  else if strTruthy inputs.prompt = false then
    ({ success := false, response := noPromptMsg }, [])
  else
    let agentId := inputs.agentId.getD ""
    let ev0 := [AgentEvent.sessionGenerated, AgentEvent.spanOpened]
    match env.getOrThrow agentId with
    | .error e => (catchOutcome e none none none none, ev0 ++ [.getAgentCall])
    | .ok agentConfig =>
      match env.getAvailableToolsMetadata agentConfig.aiconfig with
      | .error e =>
        (catchOutcome e none none none none, ev0 ++ [.getAgentCall, .getToolsCall])
      | .ok allTools =>
        let enabledTools := resolveEnabledTools allTools agentConfig.enabledTools
        let ev2 := ev0 ++ [.getAgentCall, .getToolsCall, .spanAnnotated]
        if pausedCheck appId env agentConfig then
          ({ success := false, response := pausedMsg }, ev2 ++ [.pausedTagged])
        else
          match env.buildPromptAndTools agentConfig with
          | .error e =>
            (catchOutcome e (some enabledTools) none none none,
              ev2 ++ [.buildPromptToolsCall])
          | .ok (systemPrompt, toolRegistry) =>
            match env.getLiteLLMModelConfigOrThrow agentConfig.aiconfig with
            | .error e =>
              (catchOutcome e (some enabledTools) none none none,
                ev2 ++ [.buildPromptToolsCall, .getModelConfigCall])
            | .ok modelConfig =>
              let modelId := modelConfig.modelId
              let modelName := modelConfig.modelName
              let baseUrl := modelConfig.baseUrl
              let outputOption :=
                if structuredOutputOn inputs then
                  some (env.normalizeSchemaForStructuredOutput
                    (inputs.outputSchema.getD []))
                else none
              let req : AgentRequest :=
                { modelId := modelId
                  instructions := if systemPrompt = "" then none else some systemPrompt
                  toolRegistry := toolRegistry
                  stepBound := agentStepBound
                  outputOption := outputOption
                  prompt := inputs.prompt.getD "" }
              let ev5 := ev2 ++ [.buildPromptToolsCall, .getModelConfigCall,
                .spanAnnotated, .backendClientConstructed,
                .backendStreamCall agentStepBound]
              match env.streamAgent req with
              | .error e =>
                (catchOutcome e (some enabledTools)
                  (some modelId) (some modelName) (some baseUrl), ev5)
              | .ok sr =>
                let assistantMessage := sr.messages.getLast?
                ({ success := true
                   response := sr.text
                   usage := some sr.usage
                   message := assistantMessage
                   output := match outputOption with
                     | some _ => some sr.structured
                     | none => none
                   agentTrace := some (buildAgentDecisionLog (some enabledTools)
                     assistantMessage (some modelId) (some modelName) (some baseUrl)) },
                 ev5 ++ [.spanAnnotated])

/-! ### Claim-side (specification) definitions

These follow the spec's words, to be compared with the source-derived
definitions above. -/

/-- Spec side: a part "identifies as a tool invocation" — its `type` is a
string starting with `tool-` or equal to `dynamic-tool`. -/
def claimIsToolPart : Part → Bool
  | Part.notObject => false
  | Part.obj typeField _ =>
    match typeField with
    | some (PartVal.str t) => t.startsWith "tool-" || t == "dynamic-tool"
    | _ => false

/-- Spec side: the string tool name carried by a part, if any. -/
def claimPartName : Part → Option String
  | Part.notObject => none
  | Part.obj _ toolNameField =>
    match toolNameField with
    | some (PartVal.str n) => some n
    | _ => none

/-- The claim as stated: the tool names of the parts that identify as a
tool invocation and carry a string tool name (possibly empty). -/
def claimToolNamesStated (parts : List Part) : List String :=
  (parts.filter claimIsToolPart).filterMap claimPartName

/-- The amended claim: only non-empty string tool names are counted. -/
def claimToolNames (parts : List Part) : List String :=
  (claimToolNamesStated parts).filter (fun n => !(n == ""))

/-- The distinct names of a list in first-seen order. -/
def firstSeen : List String → List String
  | [] => []
  | n :: ns => n :: firstSeen (ns.filter (fun m => !(m == n)))
termination_by l => l.length
decreasing_by
  simp only [List.length_cons]
  exact Nat.lt_succ_of_le (List.length_filter_le _ _)

/-- Spec side: the name-to-count histogram of a name list, in first-seen
order. -/
def claimHistogram (ns : List String) : List ToolUse :=
  (firstSeen ns).map (fun n => ⟨n, ns.count n⟩)

/-- The parts of an optional message (empty when absent). -/
def claimParts : Option UIMessage → List Part
  | none => []
  | some m => m.parts

/-! ### Spec-modelled tool loop

The bounded reasoning/tool-call loop lives in the `ToolLoopAgent` of the
`ai` dependency; the source only configures it with
`stopWhen: stepCountIs(30)`.  It is modelled here from the spec. -/

/-- One model round-trip result: either a request for another tool call or
a final answer with no pending tool call. -/
inductive ModelStep where
  | toolCall (call : String)
  | final (answer : String)
deriving DecidableEq, Repr

/-- Whether a model step requests another tool call. -/
def ModelStep.isToolCall : ModelStep → Bool
  | toolCall _ => true
  | final _ => false

/-- Modelled from the spec: the `ToolLoopAgent` loop (not under `src/`;
the source configures it with `stopWhen: stepCountIs(30)`).  After each
tool-call part the loop re-invokes the model; it stops when the model
emits a final answer or the remaining step budget is exhausted — whichever
comes first — and reaching the bound simply stops the loop, the produced
parts standing as the final message.  `toolLoopRun backend n i` returns the
parts produced with `n` remaining steps starting from step index `i`. -/
def toolLoopRun (backend : Nat → ModelStep) : Nat → Nat → List ModelStep
  | 0, _ => []
  | n + 1, i =>
    match backend i with
    | ModelStep.final a => [ModelStep.final a]
    | ModelStep.toolCall c => ModelStep.toolCall c :: toolLoopRun backend n (i + 1)

/-! ### Sample concrete data for witnesses and counterexamples -/

/-- A sample agent configuration (not live, one enabled tool). -/
def sampleAgentConfig : AgentConfig :=
  { name := "Helper", aiconfig := "cfg1",
    enabledTools := some ["alpha"], live := some false }

/-- A sample drained stream whose message has one non-object part. -/
def sampleStream : StreamResult :=
  { messages := [⟨[Part.notObject]⟩],
    text := "done", usage := ⟨3, 5⟩, structured := [("k", "v")] }

/-- A sample environment in which every collaborator call succeeds. -/
def sampleEnv : Env :=
  { isProdWorkspaceID := fun a => a == "app_prod"
    getOrThrow := fun _ => .ok sampleAgentConfig
    getAvailableToolsMetadata := fun _ => .ok [⟨"alpha", "d1"⟩, ⟨"beta", "d2"⟩]
    buildPromptAndTools := fun _ => .ok ("sys", ["alpha"])
    getLiteLLMModelConfigOrThrow := fun _ => .ok ⟨"gpt-test", "GPT Test", "http://llm", "key"⟩
    normalizeSchemaForStructuredOutput := fun ks => ks
    streamAgent := fun _ => .ok sampleStream }

/-- A sample environment whose model-config lookup throws. -/
def sampleFailEnv : Env :=
  { sampleEnv with
    getLiteLLMModelConfigOrThrow := fun _ => .error ⟨"NotFoundError", "model config missing"⟩ }

/-! ### Helper lemmas -/

/-- The normalized error message is never empty. -/
theorem getError_ne_empty (e : Err) : getError e ≠ "" := by
  unfold getError
  split
  · decide
  · assumption

/-- A decision log built without an assistant message has no `usedTools`. -/
theorem buildLog_no_message_usedTools (et : Option (List ToolMetadata))
    (a b c : Option String) :
    (buildAgentDecisionLog et none a b c).usedTools = none := rfl

/-- The part-wise fold of `buildAgentDecisionLog` is a `bump`-fold over the
extracted tool names. -/
theorem foldl_partToolName_eq (parts : List Part) (acc : List ToolUse) :
    parts.foldl
      (fun acc p =>
        match partToolName p with
        | some n => bump acc n
        | none => acc) acc
    = (parts.filterMap partToolName).foldl bump acc := by
  induction parts generalizing acc with
  | nil => rfl
  | cons p ps ih =>
    simp only [List.foldl_cons, List.filterMap_cons]
    cases h : partToolName p <;> simp [h, ih]

/-- The source's per-part tool-name extraction, phrased through the
claim-side part predicates. -/
theorem partToolName_eq_claim (p : Part) :
    partToolName p =
      if claimIsToolPart p then
        match claimPartName p with
        | some n => if n = "" then none else some n
        | none => none
      else none := by
  cases p with
  | notObject => rfl
  | obj tf tn =>
    cases tf with
    | none => rfl
    | some v =>
      cases v with
      | other => rfl
      | str t =>
        dsimp only [partToolName, claimIsToolPart, claimPartName]
        by_cases h : (t.startsWith "tool-" || t == "dynamic-tool") = true
        · rw [if_pos h, if_pos h]
          cases tn with
          | none => rfl
          | some w => cases w <;> rfl
        · rw [if_neg h, if_neg h]

/-- The amended claim-side name list coincides with the source's
extraction. -/
theorem claimToolNames_eq_filterMap (parts : List Part) :
    claimToolNames parts = parts.filterMap partToolName := by
  induction parts with
  | nil => rfl
  | cons p ps ih =>
    simp only [claimToolNames, claimToolNamesStated, List.filter_cons,
      List.filterMap_cons] at *
    rw [partToolName_eq_claim p]
    by_cases h : claimIsToolPart p = true
    · simp only [h, if_true]
      cases hn : claimPartName p with
      | none => simpa [h, hn] using ih
      | some n =>
        by_cases he : n = ""
        · simpa [h, hn, he] using ih
        · simpa [h, hn, he] using ih
    · simp only [Bool.not_eq_true] at h
      simpa [h] using ih

/-- `bump` introduces no name other than the bumped one. -/
theorem bump_name_ne (acc : List ToolUse) (n x : String) (hn : n ≠ x)
    (h : ∀ u ∈ acc, u.name ≠ x) : ∀ u ∈ bump acc n, u.name ≠ x := by
  induction acc with
  | nil =>
    intro u hu
    simp only [bump, List.mem_singleton] at hu
    subst hu
    exact hn
  | cons t ts ih =>
    intro u hu
    unfold bump at hu
    split at hu
    · rcases List.mem_cons.mp hu with h1 | h1
      · subst h1
        exact h t (List.mem_cons_self _ _)
      · exact h u (List.mem_cons_of_mem _ h1)
    · rcases List.mem_cons.mp hu with h1 | h1
      · subst h1
        exact h u (List.mem_cons_self _ _)
      · exact ih (fun v hv => h v (List.mem_cons_of_mem _ hv)) u h1

/-- Folding `bump` from an accumulator headed by an entry whose name does
not occur further down pins that entry at the head, adds the later
occurrences of its name to its count, and leaves the rest of the fold to
the other names. -/
theorem foldl_bump_cons (ns : List String) : ∀ (t : ToolUse) (acc : List ToolUse),
    (∀ u ∈ acc, u.name ≠ t.name) →
    List.foldl bump (t :: acc) ns =
      ⟨t.name, t.count + ns.count t.name⟩ ::
        List.foldl bump acc (ns.filter (fun m => !(m == t.name))) := by
  induction ns with
  | nil =>
    intro t acc _
    simp
  | cons m ms ih =>
    intro t acc h
    by_cases hm : t.name = m
    · subst hm
      have hb : bump (t :: acc) t.name = ⟨t.name, t.count + 1⟩ :: acc := by
        show (if t.name = t.name then (⟨t.name, t.count + 1⟩ : ToolUse) :: acc
          else t :: bump acc t.name) = ⟨t.name, t.count + 1⟩ :: acc
        rw [if_pos rfl]
      simp only [List.foldl_cons, hb]
      rw [ih ⟨t.name, t.count + 1⟩ acc h]
      have hcount : (t.name :: ms).count t.name = ms.count t.name + 1 := by
        rw [List.count_cons]
        simp
      have hfilter : (t.name :: ms).filter (fun x => !(x == t.name)) =
          ms.filter (fun x => !(x == t.name)) := by
        rw [List.filter_cons]
        simp
      rw [hcount, hfilter]
      simp only [List.cons.injEq, ToolUse.mk.injEq]
      refine ⟨⟨trivial, by omega⟩, ?_⟩
      trivial
    · have hb : bump (t :: acc) m = t :: bump acc m := by
        show (if t.name = m then (⟨t.name, t.count + 1⟩ : ToolUse) :: acc
          else t :: bump acc m) = t :: bump acc m
        rw [if_neg hm]
      simp only [List.foldl_cons, hb]
      rw [ih t (bump acc m) (bump_name_ne acc m t.name (fun hEq => hm hEq.symm) h)]
      have hcount : (m :: ms).count t.name = ms.count t.name := by
        rw [List.count_cons]
        have hmn : ¬m = t.name := fun hEq => hm hEq.symm
        simp [hm, hmn]
      have hfilter : (m :: ms).filter (fun x => !(x == t.name)) =
          m :: ms.filter (fun x => !(x == t.name)) := by
        rw [List.filter_cons]
        have hmn : ¬m = t.name := fun hEq => hm hEq.symm
        simp [hmn]
      rw [hcount, hfilter, List.foldl_cons]

/-- `firstSeen` of the empty list. -/
theorem firstSeen_nil : firstSeen [] = [] := by
  rw [firstSeen]

/-- Membership in the first-seen list is membership in the original. -/
theorem mem_firstSeen (x : String) (l : List String) (hx : x ∈ firstSeen l) :
    x ∈ l := by
  have H : ∀ (k : Nat) (l : List String), l.length ≤ k → x ∈ firstSeen l → x ∈ l := by
    intro k
    induction k with
    | zero =>
      intro l hl
      rw [List.length_eq_zero.mp (Nat.le_zero.mp hl)]
      simp [firstSeen]
    | succ k ih =>
      intro l hl hx
      cases l with
      | nil =>
        rw [firstSeen_nil] at hx
        cases hx
      | cons n ns =>
        rw [firstSeen] at hx
        rcases List.mem_cons.mp hx with h1 | h1
        · subst h1
          exact List.mem_cons_self _ _
        · have hlen : (ns.filter (fun m => !(m == n))).length ≤ k := by
            have h2 := List.length_filter_le (fun m => !(m == n)) ns
            have h3 := Nat.le_of_succ_le_succ hl
            omega
          have := ih _ hlen h1
          exact List.mem_cons_of_mem _ (List.mem_of_mem_filter this)
  exact H l.length l (Nat.le_refl _) hx

/-- The source's `Map`-based counting fold computes exactly the spec-side
first-seen-order histogram. -/
theorem foldl_bump_eq_claimHistogram (ns : List String) :
    List.foldl bump [] ns = claimHistogram ns := by
  have H : ∀ (k : Nat) (ns : List String), ns.length ≤ k →
      List.foldl bump [] ns = claimHistogram ns := by
    intro k
    induction k with
    | zero =>
      intro ns hl
      rw [List.length_eq_zero.mp (Nat.le_zero.mp hl)]
      simp [claimHistogram, firstSeen_nil]
    | succ k ih =>
      intro ns hl
      cases ns with
      | nil => simp [claimHistogram, firstSeen_nil]
      | cons n ms =>
        have hb : bump [] n = [⟨n, 1⟩] := rfl
        rw [List.foldl_cons, hb,
          foldl_bump_cons ms ⟨n, 1⟩ [] (by intro u hu; cases hu)]
        have hlen : (ms.filter (fun m => !(m == n))).length ≤ k := by
          have h2 := List.length_filter_le (fun m => !(m == n)) ms
          have h3 := Nat.le_of_succ_le_succ hl
          omega
        rw [ih _ hlen]
        unfold claimHistogram
        rw [firstSeen, List.map_cons]
        have hhead : ((n : String) :: ms).count n = 1 + ms.count n := by
          rw [List.count_cons]
          simp [Nat.add_comm]
        rw [hhead]
        congr 1
        apply List.map_congr_left
        intro m hm
        have hmem : m ∈ ms.filter (fun x => !(x == n)) := mem_firstSeen m _ hm
        have hne : m ≠ n := by
          have := List.of_mem_filter hmem
          simpa using this
        have hne2 : ¬n = m := fun hEq => hne hEq.symm
        have h1 : ((n : String) :: ms).count m = ms.count m := by
          rw [List.count_cons]
          simp [hne, hne2]
        have h2 : (ms.filter (fun x => !(x == n))).count m = ms.count m := by
          rw [List.count_filter]
          simp [hne, hne2]
        rw [h1, h2]
  exact H ns.length ns (Nat.le_refl _)

/-- The spec-side histogram is empty exactly for an empty name list. -/
theorem claimHistogram_eq_nil_iff (ns : List String) :
    claimHistogram ns = [] ↔ ns = [] := by
  cases ns with
  | nil => simp [claimHistogram, firstSeen]
  | cons n ms =>
    constructor
    · intro h
      exfalso
      unfold claimHistogram at h
      rw [firstSeen] at h
      simp at h
    · intro h
      cases h

/-- The loop never produces more parts than its remaining step budget. -/
theorem toolLoopRun_length_le (backend : Nat → ModelStep) :
    ∀ (n i : Nat), (toolLoopRun backend n i).length ≤ n := by
  intro n
  induction n with
  | zero =>
    intro i
    simp [toolLoopRun]
  | succ n ih =>
    intro i
    unfold toolLoopRun
    cases backend i with
    | final a => simp
    | toolCall c =>
      simp only [List.length_cons]
      exact Nat.succ_le_succ (ih (i + 1))

/-- Against a backend that requests a tool call on every step, the loop
produces exactly one part per budgeted step: part `k` is the backend's
step-`i + k` output. -/
theorem toolLoopRun_allToolCalls (backend : Nat → ModelStep)
    (h : ∀ k, (backend k).isToolCall = true) :
    ∀ (n i : Nat), toolLoopRun backend n i =
      (List.range n).map (fun k => backend (i + k)) := by
  intro n
  induction n with
  | zero =>
    intro i
    simp [toolLoopRun]
  | succ n ih =>
    intro i
    unfold toolLoopRun
    cases hb : backend i with
    | final a =>
      exfalso
      have := h i
      rw [hb] at this
      simp [ModelStep.isToolCall] at this
    | toolCall c =>
      dsimp only
      rw [List.range_succ_eq_map, List.map_cons, List.map_map, ih (i + 1)]
      congr 1
      · show ModelStep.toolCall c = backend (i + 0)
        rw [Nat.add_zero]
        exact hb.symm
      · apply List.map_congr_left
        intro k _
        simp only [Function.comp]
        congr 1
        omega

/-- Exhaustive description of the outcomes `run` can return: one of the
three fixed early failures, a `catch` outcome, or a success outcome
carrying a decision log. -/
theorem run_cases (inputs : AgentStepInputs) (appId : Option String) (env : Env) :
    (run inputs appId env).1 = { success := false, response := noAgentMsg } ∨
    (run inputs appId env).1 = { success := false, response := noPromptMsg } ∨
    (run inputs appId env).1 = { success := false, response := pausedMsg } ∨
    (∃ e et a b c, (run inputs appId env).1 = catchOutcome e et a b c) ∨
    ((run inputs appId env).1.success = true ∧
      ((run inputs appId env).1.agentTrace).isSome = true) := by
  unfold run
  split
  · exact Or.inl rfl
  split
  · exact Or.inr (Or.inl rfl)
  dsimp only
  split
  · exact Or.inr (Or.inr (Or.inr (Or.inl ⟨_, _, _, _, _, rfl⟩)))
  split
  · exact Or.inr (Or.inr (Or.inr (Or.inl ⟨_, _, _, _, _, rfl⟩)))
  split
  · exact Or.inr (Or.inr (Or.inl rfl))
  split
  · exact Or.inr (Or.inr (Or.inr (Or.inl ⟨_, _, _, _, _, rfl⟩)))
  split
  · exact Or.inr (Or.inr (Or.inr (Or.inl ⟨_, _, _, _, _, rfl⟩)))
  split
  · exact Or.inr (Or.inr (Or.inr (Or.inl ⟨_, _, _, _, _, rfl⟩)))
  · exact Or.inr (Or.inr (Or.inr (Or.inr ⟨rfl, rfl⟩)))

/-- Exhaustive description of the effect traces `run` can produce. -/
theorem run_trace_cases (inputs : AgentStepInputs) (appId : Option String) (env : Env) :
    (run inputs appId env).2 = [] ∨
    (run inputs appId env).2 =
      [AgentEvent.sessionGenerated, AgentEvent.spanOpened, AgentEvent.getAgentCall] ∨
    (run inputs appId env).2 =
      [AgentEvent.sessionGenerated, AgentEvent.spanOpened, AgentEvent.getAgentCall,
       AgentEvent.getToolsCall] ∨
    (run inputs appId env).2 =
      [AgentEvent.sessionGenerated, AgentEvent.spanOpened, AgentEvent.getAgentCall,
       AgentEvent.getToolsCall, AgentEvent.spanAnnotated, AgentEvent.pausedTagged] ∨
    (run inputs appId env).2 =
      [AgentEvent.sessionGenerated, AgentEvent.spanOpened, AgentEvent.getAgentCall,
       AgentEvent.getToolsCall, AgentEvent.spanAnnotated, AgentEvent.buildPromptToolsCall] ∨
    (run inputs appId env).2 =
      [AgentEvent.sessionGenerated, AgentEvent.spanOpened, AgentEvent.getAgentCall,
       AgentEvent.getToolsCall, AgentEvent.spanAnnotated, AgentEvent.buildPromptToolsCall,
       AgentEvent.getModelConfigCall] ∨
    (run inputs appId env).2 =
      [AgentEvent.sessionGenerated, AgentEvent.spanOpened, AgentEvent.getAgentCall,
       AgentEvent.getToolsCall, AgentEvent.spanAnnotated, AgentEvent.buildPromptToolsCall,
       AgentEvent.getModelConfigCall, AgentEvent.spanAnnotated,
       AgentEvent.backendClientConstructed, AgentEvent.backendStreamCall agentStepBound] ∨
    (run inputs appId env).2 =
      [AgentEvent.sessionGenerated, AgentEvent.spanOpened, AgentEvent.getAgentCall,
       AgentEvent.getToolsCall, AgentEvent.spanAnnotated, AgentEvent.buildPromptToolsCall,
       AgentEvent.getModelConfigCall, AgentEvent.spanAnnotated,
       AgentEvent.backendClientConstructed, AgentEvent.backendStreamCall agentStepBound,
       AgentEvent.spanAnnotated] := by
  unfold run
  split
  · exact Or.inl rfl
  split
  · exact Or.inl rfl
  dsimp only
  split
  · exact Or.inr (Or.inl rfl)
  split
  · exact Or.inr (Or.inr (Or.inl rfl))
  split
  · exact Or.inr (Or.inr (Or.inr (Or.inl rfl)))
  split
  · exact Or.inr (Or.inr (Or.inr (Or.inr (Or.inl rfl))))
  split
  · exact Or.inr (Or.inr (Or.inr (Or.inr (Or.inr (Or.inl rfl)))))
  split
  · exact Or.inr (Or.inr (Or.inr (Or.inr (Or.inr (Or.inr (Or.inl rfl))))))
  · exact Or.inr (Or.inr (Or.inr (Or.inr (Or.inr (Or.inr (Or.inr rfl))))))

/-- The empty name list has an empty histogram. -/
theorem claimHistogram_nil : claimHistogram [] = [] := by
  simp [claimHistogram, firstSeen_nil]

/-- `usedTools` of a built decision log, characterized through the
spec-side histogram. -/
theorem buildLog_usedTools (et : Option (List ToolMetadata)) (msg : Option UIMessage)
    (mId mN bU : Option String) :
    (buildAgentDecisionLog et msg mId mN bU).usedTools =
      (if claimToolNames (claimParts msg) = [] then none
       else some (claimHistogram (claimToolNames (claimParts msg)))) := by
  unfold buildAgentDecisionLog
  dsimp only
  have hparts : (match msg with
      | some m => m.parts
      | none => ([] : List Part)) = claimParts msg := by
    cases msg <;> rfl
  rw [hparts]
  have hhist : (claimParts msg).foldl
      (fun acc p =>
        match partToolName p with
        | some n => bump acc n
        | none => acc) [] = claimHistogram (claimToolNames (claimParts msg)) := by
    rw [foldl_partToolName_eq, ← claimToolNames_eq_filterMap,
      foldl_bump_eq_claimHistogram]
  rw [hhist]
  by_cases hns : claimToolNames (claimParts msg) = []
  · rw [if_pos hns, hns, claimHistogram_nil]
    simp
  · rw [if_neg hns]
    have : claimHistogram (claimToolNames (claimParts msg)) ≠ [] :=
      fun h => hns ((claimHistogram_eq_nil_iff _).mp h)
    simp [List.length_pos, this]

/-- `model` of a built decision log is omitted exactly when no identity
field is truthy. -/
theorem buildLog_model_none_iff (et : Option (List ToolMetadata)) (msg : Option UIMessage)
    (mId mN bU : Option String) :
    ((buildAgentDecisionLog et msg mId mN bU).model = none ↔
      (strTruthy mId = false ∧ strTruthy mN = false ∧ strTruthy bU = false)) := by
  unfold buildAgentDecisionLog
  dsimp only
  by_cases hc : (strTruthy mId || strTruthy mN || strTruthy bU) = true
  · rw [if_pos hc]
    simp only [Bool.or_eq_true] at hc
    constructor
    · intro h
      simp at h
    · rintro ⟨h1, h2, h3⟩
      rw [h1, h2, h3] at hc
      simp at hc
  · rw [if_neg hc]
    simp only [Bool.or_eq_true, not_or, Bool.not_eq_true] at hc
    simp [hc.1.1, hc.1.2, hc.2]

/-- C6 counterexample: a part that identifies as a tool invocation
(`type = "tool-calc"`) and carries the string tool name `""` is skipped by
`buildAgentDecisionLog`, so `usedTools` is omitted although the claim's
histogram over parts carrying any string tool name would be non-empty. -/
theorem C6_counterexample :
    claimToolNamesStated
        [Part.obj (some (PartVal.str "dynamic-tool")) (some (PartVal.str ""))] = [""] ∧
    claimIsToolPart (Part.obj (some (PartVal.str "dynamic-tool")) (some (PartVal.str ""))) = true ∧
    (buildAgentDecisionLog none
        (some ⟨[Part.obj (some (PartVal.str "dynamic-tool")) (some (PartVal.str ""))]⟩)
        none none none).usedTools = none := by
  have htool : claimIsToolPart
      (Part.obj (some (PartVal.str "dynamic-tool")) (some (PartVal.str ""))) = true := by
    show ("dynamic-tool".startsWith "tool-" || "dynamic-tool" == "dynamic-tool") = true
    cases h : ("dynamic-tool".startsWith "tool-") <;> decide
  have hstated : claimToolNamesStated
      [Part.obj (some (PartVal.str "dynamic-tool")) (some (PartVal.str ""))] = [""] := by
    unfold claimToolNamesStated
    rw [List.filter_cons, if_pos htool]
    rfl
  refine ⟨hstated, htool, ?_⟩
  rw [buildLog_usedTools]
  have hnames : claimToolNames
      (claimParts (some ⟨[Part.obj (some (PartVal.str "dynamic-tool"))
        (some (PartVal.str ""))]⟩)) = [] := by
    show claimToolNames
      [Part.obj (some (PartVal.str "dynamic-tool")) (some (PartVal.str ""))] = []
    unfold claimToolNames
    rw [hstated]
    rfl
  rw [if_pos hnames]

/-- C6 (amended): for every optional assistant message and parts of
arbitrary shape, `buildAgentDecisionLog` returns a decision log whose
`usedTools` is exactly the name-to-count histogram, in first-seen order, of
the parts that identify as a tool invocation and carry a NON-EMPTY string
tool name (all other parts silently ignored), `usedTools` being omitted
when that histogram is empty; and `model` is omitted exactly when none of
`modelId`, `modelName`, `baseUrl` was resolved to a truthy value. -/
theorem C6_decision_log_characterization (et : Option (List ToolMetadata))
    (msg : Option UIMessage) (mId mN bU : Option String) :
    (buildAgentDecisionLog et msg mId mN bU).enabledTools = et ∧
    (buildAgentDecisionLog et msg mId mN bU).usedTools =
      (if claimToolNames (claimParts msg) = [] then none
       else some (claimHistogram (claimToolNames (claimParts msg)))) ∧
    ((buildAgentDecisionLog et msg mId mN bU).model = none ↔
      (strTruthy mId = false ∧ strTruthy mN = false ∧ strTruthy bU = false)) :=
  ⟨rfl, buildLog_usedTools et msg mId mN bU, buildLog_model_none_iff et msg mId mN bU⟩

/-- C5: with `enabledTools` unset or empty the resolved registry is the
full available-tool list unchanged; with a non-empty `enabledTools` it is
exactly the available tools whose name is a member of the list, in the
original order (a sublist of the available list). -/
theorem C5_enabled_tool_resolution (allTools : List ToolMetadata) :
    resolveEnabledTools allTools none = allTools ∧
    resolveEnabledTools allTools (some []) = allTools ∧
    (∀ (names : List String), names ≠ [] →
      ((∀ t, t ∈ resolveEnabledTools allTools (some names) ↔
          t ∈ allTools ∧ t.name ∈ names) ∧
        (resolveEnabledTools allTools (some names)).Sublist allTools)) := by
  refine ⟨rfl, rfl, ?_⟩
  intro names hne
  have hify : ¬(names.isEmpty = true) := by
    simp [List.isEmpty_iff, hne]
  constructor
  · intro t
    show t ∈ (if names.isEmpty then allTools
        else allTools.filter (fun u => names.contains u.name)) ↔
      t ∈ allTools ∧ t.name ∈ names
    rw [if_neg hify]
    simp [List.mem_filter, List.elem_iff]
  · show (if names.isEmpty then allTools
        else allTools.filter (fun u => names.contains u.name)).Sublist allTools
    rw [if_neg hify]
    exact List.filter_sublist _

/-- C5 witness: with tools `alpha, beta` and `enabledTools = [alpha]`,
tool `alpha` is in the resolved registry. -/
theorem C5_enabled_tool_resolution_witness :
    (⟨"alpha", "d1"⟩ : ToolMetadata) ∈
      resolveEnabledTools [⟨"alpha", "d1"⟩, ⟨"beta", "d2"⟩] (some ["alpha"]) :=
  (((C5_enabled_tool_resolution [⟨"alpha", "d1"⟩, ⟨"beta", "d2"⟩]).2.2
    ["alpha"] (by decide)).1 ⟨"alpha", "d1"⟩).mpr (by decide)

/-- C3: when `agentId` is missing (or empty) or `prompt` is missing or
empty, `run` returns `success = false` immediately with an empty effect
trace: no session id is generated, no span is opened, and no store or
backend call is made. -/
theorem C3_validation_short_circuit (inputs : AgentStepInputs) (appId : Option String)
    (env : Env)
    (h : strTruthy inputs.agentId = false ∨ strTruthy inputs.prompt = false) :
    (run inputs appId env).1.success = false ∧ (run inputs appId env).2 = [] := by
  rcases h with h | h
  · unfold run
    rw [if_pos h]
    exact ⟨rfl, rfl⟩
  · unfold run
    by_cases h2 : strTruthy inputs.agentId = false
    · rw [if_pos h2]
      exact ⟨rfl, rfl⟩
    · rw [if_neg h2, if_pos h]
      exact ⟨rfl, rfl⟩

/-- C3 witness: both validation failures at concrete inputs. -/
theorem C3_validation_short_circuit_witness :
    (run ⟨none, some "p", none, none⟩ none sampleEnv).1.success = false ∧
    (run ⟨none, some "p", none, none⟩ none sampleEnv).2 = [] :=
  C3_validation_short_circuit ⟨none, some "p", none, none⟩ none sampleEnv (Or.inl rfl)

/-- C1 counterexample: an invocation that fails input validation (missing
`agentId`) returns an outcome whose `agentTrace` is absent, so not every
outcome carries a `DecisionLog`. -/
theorem C1_counterexample :
    (run ⟨none, some "hi", none, none⟩ none sampleEnv).1.agentTrace = none ∧
    (run ⟨none, some "hi", none, none⟩ none sampleEnv).1.success = false :=
  ⟨rfl, rfl⟩

/-- C1 (amended): every outcome of `run` carries an `agentTrace` decision
log EXCEPT the two input-validation failures and the paused-agent refusal,
which omit it; any outcome without an `agentTrace` is one of those three
fixed failure responses. -/
theorem C1_agentTrace_presence (inputs : AgentStepInputs) (appId : Option String)
    (env : Env) (h : (run inputs appId env).1.agentTrace = none) :
    (run inputs appId env).1.response = noAgentMsg ∨
    (run inputs appId env).1.response = noPromptMsg ∨
    (run inputs appId env).1.response = pausedMsg := by
  rcases run_cases inputs appId env with h1 | h1 | h1 | ⟨e, et, a, b, c, h1⟩ | ⟨_, h2⟩
  · exact Or.inl (by rw [h1])
  · exact Or.inr (Or.inl (by rw [h1]))
  · exact Or.inr (Or.inr (by rw [h1]))
  · rw [h1] at h
    exact absurd h (by simp [catchOutcome])
  · rw [h] at h2
    cases h2

/-- C1 witness: the missing-prompt outcome indeed lacks the trace and its
response is the fixed missing-prompt message. -/
theorem C1_agentTrace_presence_witness :
    (run ⟨some "ag", none, none, none⟩ none sampleEnv).1.response = noAgentMsg ∨
    (run ⟨some "ag", none, none, none⟩ none sampleEnv).1.response = noPromptMsg ∨
    (run ⟨some "ag", none, none, none⟩ none sampleEnv).1.response = pausedMsg :=
  C1_agentTrace_presence ⟨some "ag", none, none, none⟩ none sampleEnv rfl

/-- C2: `run` is a total function into step outcomes — every collaborator
exception is absorbed inside it — and every failure outcome carries a
non-empty `response` string. -/
theorem C2_failure_response_nonempty (inputs : AgentStepInputs) (appId : Option String)
    (env : Env) (h : (run inputs appId env).1.success = false) :
    (run inputs appId env).1.response ≠ "" := by
  rcases run_cases inputs appId env with h1 | h1 | h1 | ⟨e, et, a, b, c, h1⟩ | ⟨h1, _⟩
  · rw [h1]
    simp [noAgentMsg]
  · rw [h1]
    simp [noPromptMsg]
  · rw [h1]
    simp [pausedMsg]
  · rw [h1]
    show getError e ≠ ""
    exact getError_ne_empty e
  · rw [h1] at h
    cases h

/-- C2 witness: a failing invocation (store throws on model-config lookup)
still returns an outcome with a non-empty response. -/
theorem C2_failure_response_nonempty_witness :
    (run ⟨some "ag", some "p", none, none⟩ none sampleFailEnv).1.response ≠ "" :=
  C2_failure_response_nonempty ⟨some "ag", some "p", none, none⟩ none sampleFailEnv rfl

/-- C10: every failure outcome that carries an `agentTrace` has no
`usedTools` in it: the exception path builds the decision log without the
assistant message, so the histogram is empty and the field omitted. -/
theorem C10_failure_trace_no_usedTools (inputs : AgentStepInputs)
    (appId : Option String) (env : Env)
    (h : (run inputs appId env).1.success = false) :
    ∀ log, (run inputs appId env).1.agentTrace = some log → log.usedTools = none := by
  intro log hlog
  rcases run_cases inputs appId env with h1 | h1 | h1 | ⟨e, et, a, b, c, h1⟩ | ⟨h1, _⟩
  · rw [h1] at hlog
    cases hlog
  · rw [h1] at hlog
    cases hlog
  · rw [h1] at hlog
    cases hlog
  · rw [h1] at hlog
    have : buildAgentDecisionLog et none a b c = log := by
      have := hlog
      simpa [catchOutcome] using this
    rw [← this]
    exact buildLog_no_message_usedTools et a b c
  · rw [h1] at h
    cases h

/-- C10 witness: a concrete failing run whose trace is present and has no
`usedTools`. -/
theorem C10_failure_trace_no_usedTools_witness :
    (buildAgentDecisionLog (some [(⟨"alpha", "d1"⟩ : ToolMetadata)])
      none none none none).usedTools = none :=
  C10_failure_trace_no_usedTools ⟨some "ag", some "p", none, none⟩ none sampleFailEnv
    rfl (buildAgentDecisionLog (some [⟨"alpha", "d1"⟩]) none none none none) rfl

/-- C4: a non-live agent (`live ≠ true`) invoked with an ambient workspace
id recognized as production is refused: `success = false` with the fixed
paused message, and the effect trace shows no model-backend client
construction and no backend stream call. -/
theorem C4_paused_refusal (inputs : AgentStepInputs) (a : String) (env : Env)
    (cfg : AgentConfig) (tools : List ToolMetadata)
    (hA : strTruthy inputs.agentId = true)
    (hP : strTruthy inputs.prompt = true)
    (ha : a ≠ "")
    (hprod : env.isProdWorkspaceID a = true)
    (hlive : cfg.live ≠ some true)
    (hAgent : env.getOrThrow (inputs.agentId.getD "") = Except.ok cfg)
    (hTools : env.getAvailableToolsMetadata cfg.aiconfig = Except.ok tools) :
    (run inputs (some a) env).1 = { success := false, response := pausedMsg } ∧
    (run inputs (some a) env).2 =
      [AgentEvent.sessionGenerated, AgentEvent.spanOpened, AgentEvent.getAgentCall,
       AgentEvent.getToolsCall, AgentEvent.spanAnnotated, AgentEvent.pausedTagged] ∧
    (∀ b, AgentEvent.backendStreamCall b ∉ (run inputs (some a) env).2) ∧
    AgentEvent.backendClientConstructed ∉ (run inputs (some a) env).2 := by
  have hpc : pausedCheck (some a) env cfg = true := by
    simp [pausedCheck, ha, hprod, hlive]
  refine ⟨?_, ?_, ?_, ?_⟩ <;>
    simp [run, hA, hP, hAgent, hTools, hpc]

/-- C4 witness: the paused refusal at a concrete production workspace. -/
theorem C4_paused_refusal_witness :
    (run ⟨some "ag", some "p", none, none⟩ (some "app_prod") sampleEnv).1 =
      { success := false, response := pausedMsg } :=
  (C4_paused_refusal ⟨some "ag", some "p", none, none⟩ "app_prod" sampleEnv
    sampleAgentConfig [⟨"alpha", "d1"⟩, ⟨"beta", "d2"⟩]
    rfl rfl (by decide) rfl (by decide) rfl rfl).1

/-- The structured-output condition holds exactly when the flag is truthy
and the schema object is present with at least one key. -/
theorem structuredOutputOn_iff (inputs : AgentStepInputs) :
    structuredOutputOn inputs = true ↔
      (inputs.useStructuredOutput.getD false = true ∧ inputs.outputSchema.getD [] ≠ []) := by
  cases hs : inputs.outputSchema with
  | none => simp [structuredOutputOn, hs]
  | some keys =>
    simp [structuredOutputOn, hs, Bool.and_eq_true, decide_eq_true_eq]
    intro _
    constructor
    · intro h
      exact List.ne_nil_of_length_pos h
    · intro h
      exact List.length_pos.mpr h

/-- C7: under a successful pipeline, the outcome's `output` is the
backend's structured payload exactly when the structured-output constraint
was attached, i.e. exactly when `useStructuredOutput` is truthy and
`outputSchema` is a non-empty object; otherwise `output` is `undefined`
even if a schema was supplied. -/
theorem C7_structured_output_iff (inputs : AgentStepInputs) (appId : Option String)
    (env : Env) (cfg : AgentConfig) (tools : List ToolMetadata)
    (sp : String) (reg : List String) (mc : ModelConfig) (sr : StreamResult)
    (hA : strTruthy inputs.agentId = true)
    (hP : strTruthy inputs.prompt = true)
    (hAgent : env.getOrThrow (inputs.agentId.getD "") = Except.ok cfg)
    (hTools : env.getAvailableToolsMetadata cfg.aiconfig = Except.ok tools)
    (hpc : pausedCheck appId env cfg = false)
    (hBuild : env.buildPromptAndTools cfg = Except.ok (sp, reg))
    (hModel : env.getLiteLLMModelConfigOrThrow cfg.aiconfig = Except.ok mc)
    (hStream : ∀ q, env.streamAgent q = Except.ok sr) :
    (run inputs appId env).1.success = true ∧
    (run inputs appId env).1.output =
      (if structuredOutputOn inputs then some sr.structured else none) ∧
    ((run inputs appId env).1.output.isSome = true ↔
      (inputs.useStructuredOutput.getD false = true ∧
        inputs.outputSchema.getD [] ≠ [])) := by
  have hout : (run inputs appId env).1.output =
      (if structuredOutputOn inputs then some sr.structured else none) := by
    by_cases hso : structuredOutputOn inputs = true <;>
      simp [run, hA, hP, hAgent, hTools, hpc, hBuild, hModel, hStream, hso]
  refine ⟨?_, hout, ?_⟩
  · simp [run, hA, hP, hAgent, hTools, hpc, hBuild, hModel, hStream]
  · rw [hout, ← structuredOutputOn_iff]
    by_cases hso : structuredOutputOn inputs = true <;> simp [hso]

/-- C7 witness: with the flag set and a one-key schema the success outcome
carries the structured payload. -/
theorem C7_structured_output_iff_witness :
    (run ⟨some "ag", some "p", some true, some ["x"]⟩ none sampleEnv).1.output.isSome = true :=
  (C7_structured_output_iff ⟨some "ag", some "p", some true, some ["x"]⟩ none sampleEnv
    sampleAgentConfig [⟨"alpha", "d1"⟩, ⟨"beta", "d2"⟩] "sys" ["alpha"]
    ⟨"gpt-test", "GPT Test", "http://llm", "key"⟩ sampleStream
    rfl rfl rfl rfl rfl rfl rfl (fun _ => rfl)).2.2.mpr (by decide)

/-- C8: the reasoning/tool-call loop is bounded by the fixed step count 30
(`agentStepBound`): its output never exceeds the bound for any backend;
against a backend that requests a tool call on every step it stops exactly
at the bound — each of the 30 produced parts being the backend's output
for that step, the last produced state standing rather than an error — and
every backend stream call issued by `run` carries exactly this bound. -/
theorem C8_step_bound :
    (∀ (backend : Nat → ModelStep) (i : Nat),
        (toolLoopRun backend agentStepBound i).length ≤ agentStepBound) ∧
    (∀ backend : Nat → ModelStep, (∀ k, (backend k).isToolCall = true) →
        ((toolLoopRun backend agentStepBound 0).length = agentStepBound ∧
          (∀ j, j < agentStepBound →
            (toolLoopRun backend agentStepBound 0)[j]? = some (backend j)))) ∧
    (∀ (inputs : AgentStepInputs) (appId : Option String) (env : Env) (b : Nat),
        AgentEvent.backendStreamCall b ∈ (run inputs appId env).2 →
        b = agentStepBound) := by
  refine ⟨?_, ?_, ?_⟩
  · intro backend i
    exact toolLoopRun_length_le backend agentStepBound i
  · intro backend h
    rw [toolLoopRun_allToolCalls backend h agentStepBound 0]
    constructor
    · simp
    · intro j hj
      rw [List.getElem?_map, List.getElem?_range hj]
      simp
  · intro inputs appId env b hb
    rcases run_trace_cases inputs appId env with h | h | h | h | h | h | h | h <;>
      rw [h] at hb <;> simp_all

/-- C8 witness: a backend that always requests another tool call yields
exactly 30 loop steps. -/
theorem C8_step_bound_witness :
    (toolLoopRun (fun _ => ModelStep.toolCall "t") agentStepBound 0).length =
      agentStepBound :=
  (C8_step_bound.2.1 (fun _ => ModelStep.toolCall "t") (fun _ => rfl)).1

/-- C9: when the ambient workspace id is absent the paused check is
skipped entirely — even a non-live agent proceeds through configuration
resolution to backend client construction and the stream call, and the
paused tag is never emitted. -/
theorem C9_absent_appId_skips_paused_check (inputs : AgentStepInputs) (env : Env)
    (cfg : AgentConfig) (tools : List ToolMetadata) (sp : String) (reg : List String)
    (mc : ModelConfig)
    (hA : strTruthy inputs.agentId = true)
    (hP : strTruthy inputs.prompt = true)
    (hlive : cfg.live ≠ some true)
    (hAgent : env.getOrThrow (inputs.agentId.getD "") = Except.ok cfg)
    (hTools : env.getAvailableToolsMetadata cfg.aiconfig = Except.ok tools)
    (hBuild : env.buildPromptAndTools cfg = Except.ok (sp, reg))
    (hModel : env.getLiteLLMModelConfigOrThrow cfg.aiconfig = Except.ok mc) :
    AgentEvent.pausedTagged ∉ (run inputs none env).2 ∧
    AgentEvent.getModelConfigCall ∈ (run inputs none env).2 ∧
    AgentEvent.backendClientConstructed ∈ (run inputs none env).2 ∧
    AgentEvent.backendStreamCall agentStepBound ∈ (run inputs none env).2 := by
  have hpc : pausedCheck none env cfg = false := rfl
  refine ⟨?_, ?_, ?_, ?_⟩ <;>
    simp [run, hA, hP, hAgent, hTools, hpc, hBuild, hModel] <;>
    (repeat' split) <;>
    simp_all

/-- C9 witness: the non-live sample agent with no ambient workspace id
reaches the backend stream call. -/
theorem C9_absent_appId_skips_paused_check_witness :
    AgentEvent.backendStreamCall agentStepBound ∈
      (run ⟨some "ag", some "p", none, none⟩ none sampleEnv).2 :=
  (C9_absent_appId_skips_paused_check ⟨some "ag", some "p", none, none⟩ sampleEnv
    sampleAgentConfig [⟨"alpha", "d1"⟩, ⟨"beta", "d2"⟩] "sys" ["alpha"]
    ⟨"gpt-test", "GPT Test", "http://llm", "key"⟩
    rfl rfl (by decide) rfl rfl rfl rfl).2.2.2

end AgentStep
